import Mathlib

/-!
# Verification of the katana static HTTP server's request/response pipeline

This file gives a shallow embedding, in Lean 4, of the core of the katana
HTTP/1.1 static-content server (src/src/response.rs, src/src/server.rs,
src/src/utils.rs) and proves properties of the Content Resolver
(`Response.serve`), the Method Transformer (`Server.method_handle`) and the
Response Serializer (`Response.to_string`).

Modelling conventions:
- Rust `String`/`&str` values are Lean `String`s; byte-level operations of the
  source (`starts_with`, `strip_prefix`, `contains`, slicing) are modelled on
  the character list `String.data`, which agrees with the byte-level behaviour
  on UTF-8 strings at character boundaries (the only place the two could
  differ, `request.path[1..]`, slices off the leading "/", a 1-byte
  character).  Byte lengths (`String::len`) are modelled by
  `String.utf8ByteSize`.
- The filesystem and the other effectful collaborators are modelled by a
  `World` record of pure functions keyed by absolute path strings: `is_dir`,
  `is_file` (`Path::is_dir/is_file`), `open_ok` (`File::open` succeeding),
  `read_to_string` (`Read::read_to_string`, `none` when the contents are not
  valid UTF-8), and `read_dir` (the entries of `fs::read_dir` that
  `Utils::collect_entries` keeps, with readable metadata and UTF-8 names).
- Functions that can panic in the source (the `unwrap` calls on
  `Path::file_name`, `Path::extension` and the `str::strip_prefix` of the
  directory listing) return `Option`; `none` models a panic.
- Code of the repository that is not under src/ (http.rs, request.rs,
  filetype.rs) is modelled from the spec where the pipeline depends on it;
  each such definition carries a doc comment starting `Modelled from the
  spec:`.
-/

/-! ## String helpers (models of the Rust string operations used) -/

/-- Model of Rust `str::starts_with`: `p` is a prefix of `s`. -/
def strStartsWith (s p : String) : Bool := p.data.isPrefixOf s.data

/-- Model of Rust `str::ends_with`: `p` is a suffix of `s`. -/
def strEndsWith (s p : String) : Bool := p.data.isSuffixOf s.data

/-- Does `pat` occur as a contiguous subsequence of `l`?  (Helper for the
model of Rust `str::contains`.) -/
def containsSeq (pat : List Char) : List Char → Bool
  | [] => pat.isEmpty
  | c :: t => pat.isPrefixOf (c :: t) || containsSeq pat t

/-- Model of Rust `str::contains(&str)`: `pat` occurs contiguously in `s`. -/
def strContains (s pat : String) : Bool := containsSeq pat.data s.data

/-- Model of dropping the first `n` characters of a string (used for
`request.path[1..]` and for `str::strip_prefix`). -/
def strDrop (s : String) (n : Nat) : String := ⟨s.data.drop n⟩

/-- Model of Rust `str::trim` (ASCII whitespace). -/
def strTrim (s : String) : String :=
  ⟨((s.data.dropWhile Char.isWhitespace).reverse.dropWhile Char.isWhitespace).reverse⟩

/-- Model of Rust `str::strip_prefix(p)` on plain strings (used for the
`li_href` computation of `serve_directory`). -/
def stripPrefixStr (s p : String) : Option String :=
  if strStartsWith s p then some (strDrop s p.length) else none

/-- Model of Rust `Path::strip_prefix(root)` followed by `to_string_lossy`,
for the slash-separated path strings this server constructs: it removes the
prefix `root` together with the separating slash (an exact match leaves the
empty relative path). -/
def stripPrefixPath (root s : String) : Option String :=
  if s = root then some ""
  else if strStartsWith s (root ++ "/") then some (strDrop s (root ++ "/").length)
  else none

/-- Model of `PathBuf::join` for the join of the configured root directory
with the request path stripped of its leading "/": an absolute right operand
replaces the left one, joining the empty relative path leaves a trailing
separator, and otherwise a "/" separates the two parts (the root directory is
taken without a trailing slash, as configuration provides it). -/
def pathJoin (root rel : String) : String :=
  if strStartsWith rel "/" then rel
  else if rel = "" then root ++ "/"
  else root ++ "/" ++ rel

/-- Model of `PathBuf::join`/`DirEntry::path` for joining a directory path
with a relative file name: a "/" is inserted unless the directory path already
ends with one. -/
def joinRel (dir rel : String) : String :=
  if strEndsWith dir "/" then dir ++ rel else dir ++ "/" ++ rel

/-- Model of `str::replace('\\', "/")`: a single-character pattern replaced by
a single-character string is a character map. -/
def replaceBackslash (s : String) : String :=
  ⟨s.data.map (fun c => if c = '\\' then '/' else c)⟩

/-- The characters after the last '/' of a list (the whole list when there is
no '/'). -/
def afterLastSlash (l : List Char) : List Char :=
  (l.reverse.takeWhile (fun c => c ≠ '/')).reverse

/-- Model of `Path::file_name().to_string_lossy()` for the slash-separated
path strings this server constructs: the last path segment, `none` (a panic
site under `unwrap`) for the root path or a path ending in "..".  (CurDir
components, which Rust's path parser would normalize away, are not modelled;
the server never constructs them.) -/
def fileNameOpt (p : String) : Option String :=
  let core := (p.data.reverse.dropWhile (fun c => c = '/')).reverse
  let name := afterLastSlash core
  if name = [] then none
  else if name = ['.', '.'] then none
  else some ⟨name⟩

/-- The characters after the last '.' of a list, `none` when there is no '.'
(helper for the model of `Path::extension`). -/
def afterLastDot : List Char → Option (List Char)
  | [] => none
  | c :: rest =>
    match afterLastDot rest with
    | some r => some r
    | none => if c = '.' then some rest else none

/-- Model of `Path::extension` on a file name: the portion after the last
'.', except that a name with no '.' after its first character has no
extension. -/
def extFromName (name : String) : Option String :=
  match name.data with
  | [] => none
  | c :: rest =>
    if c = '.' && !rest.contains '.' then none
    else (afterLastDot (c :: rest)).map (fun l => (⟨l⟩ : String))

/-- Model of `Path::extension().to_str()` on a whole path. -/
def extensionOpt (p : String) : Option String :=
  (fileNameOpt p).bind extFromName

/-! ## The HTTP data model

http.rs and request.rs of the repository are not under src/; the types below
are modelled from the spec. -/

/-- Modelled from the spec: http.rs (`HttpMethod`) is not under src/.  The
request method: "enum: GET, HEAD, OPTIONS, TRACE, and an \"other/unsupported\"
catch-all carrying the raw verb". -/
inductive HttpMethod where
  | GET
  | HEAD
  | OPTIONS
  | TRACE
  | Other (verb : String)
deriving DecidableEq, Repr

/-- Modelled from the spec: the wire token of a method (the raw verb for the
catch-all variant). -/
def HttpMethod.asStr : HttpMethod → String
  | .GET => "GET"
  | .HEAD => "HEAD"
  | .OPTIONS => "OPTIONS"
  | .TRACE => "TRACE"
  | .Other v => v

/-- Modelled from the spec: `HttpMethod::comma_separated`, the "comma-joined
list" of a method set (used for the Allow and Access-Control-Allow-Methods
headers). -/
def HttpMethod.comma_separated (methods : List HttpMethod) : String :=
  String.intercalate ", " (methods.map HttpMethod.asStr)

/-- Modelled from the spec: http.rs (`HttpStatus`) is not under src/.  "closed
enum {200 OK, 403 Forbidden, 404 Not Found, 405 Method Not Allowed, 500
Internal Server Error}". -/
inductive HttpStatus where
  | Ok
  | Forbidden
  | NotFound
  | MethodNotAllowed
  | InternalServerError
deriving DecidableEq, Repr

/-- Modelled from the spec: the fixed numeric code of a status. -/
def HttpStatus.to_code : HttpStatus → Nat
  | .Ok => 200
  | .Forbidden => 403
  | .NotFound => 404
  | .MethodNotAllowed => 405
  | .InternalServerError => 500

/-- Modelled from the spec: the fixed reason phrase of a status. -/
def HttpStatus.to_message : HttpStatus → String
  | .Ok => "OK"
  | .Forbidden => "Forbidden"
  | .NotFound => "Not Found"
  | .MethodNotAllowed => "Method Not Allowed"
  | .InternalServerError => "Internal Server Error"

/-- Modelled from the spec: http.rs (`HttpVersion`) is not under src/; the
version defaults to HTTP/1.1 and serializes as its wire token. -/
inductive HttpVersion where
  | Http11
deriving DecidableEq, Repr

/-- Modelled from the spec: the wire token of the version. -/
def HttpVersion.as_str : HttpVersion → String
  | .Http11 => "HTTP/1.1"

/-- Modelled from the spec: request.rs is not under src/.  Of the parsed
Request, the pipeline under verification uses the method, the path (which
"always starts with `/`"), and — for the TRACE echo — `http_description()`,
"the verbatim textual description of the original request", carried here as a
field. -/
structure Request where
  method : HttpMethod
  path : String
  http_description : String
deriving DecidableEq, Repr

/-- Modelled from the spec: filetype.rs is not under src/.  Of the FileType
descriptor returned by the MIME Resolver, the pipeline uses the content-type
string and the derived content-disposition string; the descriptor is modelled
by those two fields. -/
structure FileType where
  content_type : String
  disposition : String
deriving DecidableEq, Repr

/-! ## The effectful collaborators -/

/-- One entry of `fs::read_dir`, as used by `Utils::walk_dir`: its file name
and whether its metadata says it is a directory. -/
structure RawEntry where
  name : String
  is_dir : Bool
deriving DecidableEq, Repr

/-- The filesystem and MIME-table collaborators, as pure functions keyed by
absolute path strings.  `read_dir` lists the entries that
`Utils::collect_entries` keeps (those with `Ok` metadata and UTF-8 names), in
iteration order.  `from_extension`/`bin_disposition` model the MIME Resolver:
the lookup of `FileType::from_extension`, and the content-disposition derived
for the `("bin", "application/octet-stream", "Binary File")` default
descriptor. -/
structure World where
  is_dir : String → Bool
  is_file : String → Bool
  open_ok : String → Bool
  read_to_string : String → Option String
  read_dir : String → List RawEntry
  from_extension : String → Option FileType
  bin_disposition : String

namespace Utils

/-- `Utils::is_valid_entry`: directory entries whose name starts with '.' are
skipped. -/
def is_valid_entry (name : String) : Bool := !(strStartsWith name ".")

/-- `Utils::walk_dir`: the `(entry_type, entry_name, entry_path)` triples of
the valid direct children of `path`; the path string has backslashes replaced
by slashes and, for directories, a trailing "/" appended. -/
def walk_dir (w : World) (path : String) : List (String × String × String) :=
  (w.read_dir path).filterMap (fun e =>
    if is_valid_entry e.name then
      let entryPath := replaceBackslash (joinRel path e.name)
      let entryType := if e.is_dir then "directory" else "file"
      let entryPath :=
        if e.is_dir && !(strEndsWith entryPath "/") then entryPath ++ "/" else entryPath
      some (entryType, e.name, entryPath)
    else none)

end Utils

/-! ## The Response data model and the Content Resolver -/

/-- `Response` (src/src/response.rs): the draft/final response mutated in
place through the pipeline.  The body is carried as a `String` as in
response.rs (server.rs's byte-vector body is the UTF-8 bytes of the same
string; `Vec::new()` is the empty string, `String::into_bytes` the
identity). -/
structure Response where
  request : Request
  http_version : HttpVersion
  status_code : HttpStatus
  headers : List (String × String)
  cookies : List (String × String)
  body : String
deriving DecidableEq, Repr

/-- The minimal HTML error page of `Response::serve_error_response`. -/
def errorPageBody (status : HttpStatus) : String :=
  "<html><body><h1>" ++ status.to_message ++ "</h1></body></html>"

namespace Response

/-- `Response::new`: the draft response wrapping a request — HTTP/1.1, 200 OK,
no headers, no cookies, empty body; the source returns `Some` of it. -/
def new (request : Request) : Option Response :=
  some
    { request := request
      http_version := .Http11
      status_code := .Ok
      headers := []
      cookies := []
      body := "" }

/-- `Response::serve_error_response`: set the status, set the body to the
minimal HTML error page, clear the headers and push the error-page pair. -/
def serve_error_response (r : Response) (status : HttpStatus) : Response :=
  { r with
    status_code := status
    body := errorPageBody status
    headers :=
      [("Content-Type", "text/html"),
       ("Content-Length", toString (errorPageBody status).utf8ByteSize)] }

/-- `Response::serve_file`: dot-file checks, then open, MIME resolution, read;
`none` models the panics of `file_name().unwrap()` and
`extension().unwrap()`. -/
def serve_file (r : Response) (w : World) (root : String) (path : String) :
    Option Response :=
  match fileNameOpt path with
  | none => none
  | some name =>
    let relativePath := (stripPrefixPath root path).getD "/"
    if (strStartsWith relativePath "/." || strStartsWith relativePath ".") &&
        !(strContains relativePath ".well-known") then
      some (r.serve_error_response .Forbidden)
    else if strStartsWith name "." && name ≠ ".well-known" then
      some (r.serve_error_response .Forbidden)
    else if w.open_ok path then
      match extensionOpt path with
      | none => none
      | some extension =>
        let fileType :=
          (w.from_extension extension).getD
            { content_type := "application/octet-stream", disposition := w.bin_disposition }
        match w.read_to_string path with
        | some content =>
          some
            { r with
              body := content
              status_code := .Ok
              headers :=
                [("Content-Type", fileType.content_type),
                 ("Content-Length", toString content.utf8ByteSize),
                 ("Content-Disposition", fileType.disposition)] }
        | none => some (r.serve_error_response .InternalServerError)
    else some (r.serve_error_response .NotFound)

/-- The `<li>` items of the directory listing: each entry path stripped of the
root-directory string (`str::strip_prefix(root_dir).unwrap()`; `none` models
the panic) and rendered as an anchor, concatenated in order. -/
def renderLis (root : String) : List (String × String) → Option String
  | [] => some ""
  | e :: t =>
    match stripPrefixStr e.2 root, renderLis root t with
    | some href, some rest =>
      some ("<li><a href='" ++ href ++ "'>" ++ e.1 ++ "</a></li>" ++ rest)
    | _, _ => none

/-- `Response::serve_directory`: the dot check on the "/"-prefixed relative
path (no `.well-known` exemption here), then the rendered listing — parent
link unless at root, Empty Folder marker when there are no entries, then
directories, then files. -/
def serve_directory (r : Response) (w : World) (root : String) (path : String) :
    Option Response :=
  let relativePath := "/" ++ (stripPrefixPath root path).getD "/"
  if strStartsWith relativePath "/." || strStartsWith relativePath "." then
    some (r.serve_error_response .Forbidden)
  else
    let entries := Utils.walk_dir w path
    let folders := entries.filterMap (fun t => if t.1 = "directory" then some t.2 else none)
    let files := entries.filterMap (fun t => if t.1 = "directory" then none else some t.2)
    let listing1 := if relativePath ≠ "/" then "<li><a href='../'>..</a></li>" else ""
    let listing2 := if entries.length = 0 then "<li><b>Empty Folder</b></li>" else ""
    match renderLis root folders, renderLis root files with
    | some folderLis, some fileLis =>
      let listingHtml := listing1 ++ listing2 ++ folderLis ++ fileLis
      let body :=
        "<html><body><h1>Directory listing for " ++ relativePath ++ "</h1><ul>" ++
          listingHtml ++ "</ul></body></html>"
      some
        { r with
          body := body
          status_code := .Ok
          headers :=
            [("Content-Type", "text/html"),
             ("Content-Length", toString body.utf8ByteSize)] }
    | _, _ => none

/-- `Response::serve` (the Content Resolver): join the root with the request
path stripped of its leading "/", then serve a directory (its index.html if
present), a file, or a 404. -/
def serve (r : Response) (w : World) (root : String) : Option Response :=
  let filePath := pathJoin root (strDrop r.request.path 1)
  if w.is_dir filePath then
    let indexHtml := joinRel filePath "index.html"
    if w.is_file indexHtml then r.serve_file w root indexHtml
    else r.serve_directory w root filePath
  else if w.is_file filePath then r.serve_file w root filePath
  else some (r.serve_error_response .NotFound)

/-- `Response::to_string` (the Response Serializer): status line, headers,
cookies, blank line, body. -/
def to_string (r : Response) : String :=
  let result := ""
  let result :=
    result ++ r.http_version.as_str ++ " " ++ toString r.status_code.to_code ++ " " ++
      r.status_code.to_message ++ "\r\n"
  let headerLines :=
    String.join (r.headers.map (fun kv => strTrim kv.1 ++ ": " ++ strTrim kv.2 ++ "\r\n"))
  let result := result ++ headerLines
  let cookieLines :=
    String.join
      (r.cookies.map (fun kv => "Set-Cookie: " ++ strTrim kv.1 ++ "=" ++ strTrim kv.2 ++ "\r\n"))
  let result := result ++ cookieLines
  let result := result ++ "\r\n"
  result ++ r.body

end Response

/-! ## The Method Transformer -/

namespace Server

/-- `Server::SUPPORTED_HTTP_METHODS`. -/
def supported_http_methods : List HttpMethod :=
  [.GET, .HEAD, .OPTIONS, .TRACE]

/-- `Server::method_handle`: the sequential method branches of server.rs.  The
clock read of `Utils::datetime_rfc_1123` for the OPTIONS Date header is passed
in as `now`. -/
def method_handle (now : String) (response : Response) : Response :=
  -- GET: nothing, process as usual
  let response :=
    if response.request.method = .HEAD then
      -- do not return body
      { response with body := "" }
    else response
  let response :=
    if response.request.method = .OPTIONS then
      { response with
        body := ""
        headers := response.headers ++
          [("Date", now),
           ("Allow", HttpMethod.comma_separated supported_http_methods),
           ("Access-Control-Allow-Origin", "*"),
           ("Access-Control-Allow-Methods", HttpMethod.comma_separated supported_http_methods)] }
    else response
  let response :=
    if response.request.method = .TRACE then
      let body := "\r\n" ++ response.request.http_description
      { response with
        status_code := .Ok
        headers :=
          [("Content-Type", "message/http"),
           ("Content-Length", toString body.utf8ByteSize)]
        body := body }
    else response
  if response.request.method ∉ supported_http_methods then
    { response with
      body := ""
      headers := [("Allow", HttpMethod.comma_separated supported_http_methods)]
      status_code := .MethodNotAllowed }
  else response

/-- The pipeline of `Server::handle_response` up to and including
`method_handle` (before `server_transformation` appends the Server
header). -/
def pipeline (w : World) (root now : String) (req : Request) : Option Response :=
  (Response.new req).bind (fun r => (r.serve w root).map (method_handle now))

end Server

/-- The Content Resolver applied to a fresh draft response for a request. -/
def serveOf (w : World) (root : String) (req : Request) : Option Response :=
  (Response.new req).bind (fun r => r.serve w root)

/-! ## Shape lemmas for the Content Resolver -/

/-- The error-page shape required of every error response: the body is the
minimal HTML error page for the response's status, and the headers are
exactly the pair Content-Type: text/html and Content-Length matching the
body's byte length. -/
def errorShape (resp : Response) : Prop :=
  resp.body = errorPageBody resp.status_code ∧
  resp.headers =
    [("Content-Type", "text/html"),
     ("Content-Length", toString resp.body.utf8ByteSize)]

/-- The result pattern shared by every branch of the Content Resolver:
request, cookies and version are preserved, and the result is either a 200 or
an error page in the canonical shape. -/
def resolverShape (r resp : Response) : Prop :=
  resp.request = r.request ∧ resp.cookies = r.cookies ∧
  resp.http_version = r.http_version ∧
  (resp.status_code = .Ok ∨ (resp.status_code ≠ .Ok ∧ errorShape resp))

/-! ## Pipeline plumbing -/

/-- The draft response record built by `Response::new`. -/
def baseResponse (req : Request) : Response :=
  { request := req
    http_version := .Http11
    status_code := .Ok
    headers := []
    cookies := []
    body := "" }

/-! ## Concrete inputs used by the witnesses and counterexamples -/

/-- A world in which nothing exists. -/
def wEmpty : World :=
  { is_dir := fun _ => false
    is_file := fun _ => false
    open_ok := fun _ => false
    read_to_string := fun _ => none
    read_dir := fun _ => []
    from_extension := fun _ => none
    bin_disposition := "" }

def reqC1 : Request := ⟨.GET, "/missing", "GET /missing HTTP/1.1"⟩

def respC1 : Response :=
  { request := reqC1
    http_version := .Http11
    status_code := .NotFound
    headers := [("Content-Type", "text/html"), ("Content-Length", "44")]
    cookies := []
    body := "<html><body><h1>Not Found</h1></body></html>" }

def reqDelete : Request := ⟨.Other "DELETE", "/x", "DELETE /x HTTP/1.1"⟩

def reqTrace : Request := ⟨.TRACE, "/anything", "TRACE /anything HTTP/1.1"⟩

def reqHeadDraft : Response :=
  { request := ⟨.HEAD, "/a.txt", "HEAD /a.txt HTTP/1.1"⟩
    http_version := .Http11
    status_code := .Ok
    headers := [("Content-Type", "text/plain"), ("Content-Length", "5")]
    cookies := [("sid", "1")]
    body := "hello" }

/-- A world with a single readable regular file /srv/Makefile with no
extension in its name. -/
def wMakefile : World :=
  { wEmpty with
    is_file := fun p => p = "/srv/Makefile"
    open_ok := fun p => p = "/srv/Makefile"
    read_to_string := fun p => if p = "/srv/Makefile" then some "all: build" else none }

/-- A world with a single readable regular file /srv/data.xyz whose extension
is not in the MIME table. -/
def wXyz : World :=
  { wEmpty with
    is_file := fun p => p = "/srv/data.xyz"
    open_ok := fun p => p = "/srv/data.xyz"
    read_to_string := fun p => if p = "/srv/data.xyz" then some "payload" else none }

/-- A world with a single regular file /srv/f.txt that exists but cannot be
opened. -/
def wOpenFail : World :=
  { wEmpty with is_file := fun p => p = "/srv/f.txt" }

/-- A world with a single openable regular file /srv/f.bin whose contents are
not valid UTF-8 (`read_to_string` fails). -/
def wBadUtf8 : World :=
  { wEmpty with
    is_file := fun p => p = "/srv/f.bin"
    open_ok := fun p => p = "/srv/f.bin" }

/-- A world with a single openable regular file /srv/data, with no extension,
whose contents are not valid UTF-8. -/
def wBadUtf8NoExt : World :=
  { wEmpty with
    is_file := fun p => p = "/srv/data"
    open_ok := fun p => p = "/srv/data" }

def respC8 : Response :=
  { request := ⟨.GET, "/", "GET / HTTP/1.1"⟩
    http_version := .Http11
    status_code := .Ok
    headers := []
    cookies := [(" a ", "b")]
    body := "" }

/-- A world with a single dot-directory /srv/.git (no index.html inside). -/
def wDotDir : World :=
  { wEmpty with is_dir := fun p => p = "/srv/.git" }

def reqC2 : Request := ⟨.GET, "/.git", "GET /.git HTTP/1.1"⟩

/-! ## The spec-side rendering of a directory listing (for C9)

These definitions follow the words of the spec's `serve_directory` contract;
the C9 theorem compares them with the source-derived `serve_directory`. -/

/-- Concatenation of a list of strings in order. -/
def joinStrings : List String → String
  | [] => ""
  | s :: t => s ++ joinStrings t

/-- The non-dot direct children of a directory ("enumerate direct children
(skip dotfiles — see `is_valid_entry`)"). -/
def specEntries (w : World) (dirPath : String) : List RawEntry :=
  (w.read_dir dirPath).filter (fun e => Utils.is_valid_entry e.name)

/-- The entry's root-relative path: "/<rel>/<name>", with a trailing "/" for
directories (as `walk_dir` forms entry paths). -/
def specHref (rel : String) (e : RawEntry) : String :=
  (if rel = "" then "/" ++ e.name else "/" ++ rel ++ "/" ++ e.name) ++
    (if e.is_dir then "/" else "")

/-- One listing item: "an anchor whose href is the entry's root-relative path
and whose label is the bare entry name". -/
def specLi (rel : String) (e : RawEntry) : String :=
  "<li><a href='" ++ specHref rel e ++ "'>" ++ e.name ++ "</a></li>"

/-- The listing the spec describes: "a leading `..` parent link unless
already at root, an \"Empty Folder\" marker if there are zero entries, then
directories followed by files". -/
def specListing (w : World) (dirPath rel : String) : String :=
  (if rel ≠ "" then "<li><a href='../'>..</a></li>" else "") ++
  (if specEntries w dirPath = [] then "<li><b>Empty Folder</b></li>" else "") ++
  joinStrings (((specEntries w dirPath).filter (fun e => e.is_dir)).map (specLi rel)) ++
  joinStrings (((specEntries w dirPath).filter (fun e => !e.is_dir)).map (specLi rel))

/-- The rendered directory-listing page for the directory at root-relative
path `rel`. -/
def specDirBody (w : World) (root rel : String) : String :=
  "<html><body><h1>Directory listing for " ++ ("/" ++ rel) ++ "</h1><ul>" ++
    specListing w (pathJoin root rel) rel ++ "</ul></body></html>"

/-- A world with directory /srv/d containing a dot-directory (skipped), a
child directory and a child file. -/
def wDirC9 : World :=
  { wEmpty with
    is_dir := fun p => p = "/srv/d"
    read_dir := fun p =>
      if p = "/srv/d" then [⟨".git", true⟩, ⟨"sub", true⟩, ⟨"a.txt", false⟩] else [] }

def reqC9 : Request := ⟨.GET, "/d", "GET /d HTTP/1.1"⟩

/-! ## Lemmas about the string helpers -/

theorem strStartsWith_iff (s p : String) : strStartsWith s p = true ↔ p.data <+: s.data := by
  simp [strStartsWith, List.isPrefixOf_iff_prefix]

theorem strEndsWith_iff (s p : String) : strEndsWith s p = true ↔ p.data <:+ s.data := by
  simp [strEndsWith, List.isSuffixOf_iff_suffix]

theorem containsSeq_iff (pat l : List Char) : containsSeq pat l = true ↔ pat <:+: l := by
  induction l with
  | nil => simp [containsSeq, List.infix_nil, List.isEmpty_iff]
  | cons c t ih =>
    simp [containsSeq, List.infix_cons_iff, ih, List.isPrefixOf_iff_prefix]

theorem strContains_iff (s pat : String) : strContains s pat = true ↔ pat.data <:+: s.data := by
  simp [strContains, containsSeq_iff]

theorem strLength_data (s : String) : s.length = s.data.length := by
  cases s
  rfl

theorem strDrop_append (p s : String) : strDrop (p ++ s) p.length = s := by
  cases p with
  | mk l =>
    cases s with
    | mk m =>
      show String.mk ((l ++ m).drop l.length) = ⟨m⟩
      rw [List.drop_left]

theorem strDrop_self_length (s : String) : strDrop s s.length = "" := by
  cases s with
  | mk l =>
    show String.mk (l.drop l.length) = ⟨[]⟩
    rw [List.drop_length]

theorem strLength_append (a b : String) : (a ++ b).length = a.length + b.length := by
  cases a
  cases b
  show (List.length (_ ++ _)) = _
  simp [strLength_data]

theorem append_ne_left (a b : String) (hb : b ≠ "") : a ++ b ≠ a := by
  intro h
  apply hb
  have := congrArg String.length h
  rw [strLength_append] at this
  have hb0 : b.length = 0 := by omega
  cases b with
  | mk m =>
    rw [strLength_data] at hb0
    simp [List.length_eq_zero] at hb0
    simp [hb0]

theorem stripPrefixStr_self (root x : String) : stripPrefixStr (root ++ x) root = some x := by
  have h : strStartsWith (root ++ x) root = true := by
    rw [strStartsWith_iff, String.data_append]
    exact List.prefix_append _ _
  simp [stripPrefixStr, h, strDrop_append]

theorem pathJoin_empty (root : String) : pathJoin root "" = root ++ "/" := by
  rw [pathJoin]
  rw [if_neg (by decide), if_pos rfl]

theorem pathJoin_eq_append (root rel : String) (h : strStartsWith rel "/" = false)
    (hrel : rel ≠ "") : pathJoin root rel = root ++ "/" ++ rel := by
  rw [pathJoin]
  rw [if_neg (by simp [h]), if_neg hrel]

theorem stripPrefixPath_join (root rel : String) (h : strStartsWith rel "/" = false) :
    stripPrefixPath root (pathJoin root rel) = some rel := by
  by_cases hrel : rel = ""
  · subst hrel
    rw [pathJoin_empty]
    have hne : root ++ "/" ≠ root := append_ne_left root "/" (by decide)
    have hsw : strStartsWith (root ++ "/") (root ++ "/") = true := by
      rw [strStartsWith_iff]
    rw [stripPrefixPath, if_neg hne, if_pos hsw, strDrop_self_length]
  · rw [pathJoin_eq_append root rel h hrel]
    have hone : ("/" : String).length = 1 := by decide
    have hne : root ++ "/" ++ rel ≠ root := by
      intro hcontra
      have hlen := congrArg String.length hcontra
      rw [strLength_append, strLength_append, hone] at hlen
      have hrel0 : rel.length = 0 := by omega
      apply hrel
      cases rel with
      | mk m =>
        rw [strLength_data] at hrel0
        simp [List.length_eq_zero] at hrel0
        simp [hrel0]
    have hsw : strStartsWith (root ++ "/" ++ rel) (root ++ "/") = true := by
      rw [strStartsWith_iff, String.data_append]
      exact List.prefix_append _ _
    rw [stripPrefixPath, if_neg hne, if_pos hsw]
    exact congrArg some (strDrop_append (root ++ "/") rel)

theorem strDrop_one_slash (rel : String) : strDrop ("/" ++ rel) 1 = rel := by
  cases rel with
  | mk l =>
    show String.mk ((("/" : String).data ++ l).drop 1) = ⟨l⟩
    rfl

theorem startsWith_slash_dot (rel : String) :
    strStartsWith ("/" ++ rel) "/." = strStartsWith rel "." := by
  cases rel with
  | mk l =>
    show List.isPrefixOf ['/', '.'] ('/' :: l) = List.isPrefixOf ['.'] l
    simp [List.isPrefixOf]

theorem startsWith_slash_ne_dot (rel : String) : strStartsWith ("/" ++ rel) "." = false := by
  cases rel with
  | mk l =>
    show List.isPrefixOf ['.'] ('/' :: l) = false
    simp [List.isPrefixOf]

theorem slash_append_eq_slash_iff (rel : String) : ("/" ++ rel = "/") ↔ rel = "" := by
  cases rel with
  | mk l =>
    constructor
    · intro h
      have hdata : ('/' :: l) = ['/'] := congrArg String.data h
      simp at hdata
      simp [hdata]
    · intro h
      have hdata : l = [] := by
        have := congrArg String.data h
        simpa using this
      simp [hdata]

theorem prefix_append_sep (pat a b : List Char) (hsep : '/' ∉ pat)
    (h : pat <+: a ++ '/' :: b) : pat <+: a := by
  rw [List.prefix_iff_eq_take] at h
  rw [List.take_append_eq_append_take] at h
  by_cases hle : pat.length ≤ a.length
  · rw [Nat.sub_eq_zero_of_le hle] at h
    simp at h
    rw [h]
    exact List.take_prefix _ _
  · exfalso
    apply hsep
    have hpos : 0 < pat.length - a.length := by omega
    obtain ⟨k, hk⟩ : ∃ k, pat.length - a.length = k + 1 :=
      ⟨pat.length - a.length - 1, by omega⟩
    rw [hk] at h
    simp [List.take_succ_cons] at h
    rw [h]
    simp

theorem infix_append_sep (pat a b : List Char) (hsep : '/' ∉ pat) (hne : pat ≠ [])
    (h : pat <:+: a ++ '/' :: b) : pat <:+: a ∨ pat <:+: b := by
  induction a with
  | nil =>
    simp at h
    rw [List.infix_cons_iff] at h
    rcases h with h | h
    · exfalso
      cases pat with
      | nil => exact hne rfl
      | cons p ps =>
        rw [List.cons_prefix_cons] at h
        exact hsep (h.1 ▸ List.mem_cons_self _ _)
    · exact Or.inr h
  | cons x a' ih =>
    rw [List.cons_append, List.infix_cons_iff] at h
    rcases h with h | h
    · left
      have := prefix_append_sep pat (x :: a') b hsep (by simpa using h)
      exact this.isInfix
    · rcases ih h with h' | h'
      · exact Or.inl (List.infix_cons h')
      · exact Or.inr h'

theorem serve_error_response_fields (r : Response) (s : HttpStatus) :
    (r.serve_error_response s).request = r.request ∧
    (r.serve_error_response s).cookies = r.cookies ∧
    (r.serve_error_response s).http_version = r.http_version ∧
    (r.serve_error_response s).status_code = s ∧
    errorShape (r.serve_error_response s) := by
  refine ⟨rfl, rfl, rfl, rfl, ?_, ?_⟩ <;> rfl

theorem resolverShape_of_error (r : Response) (s : HttpStatus) (hs : s ≠ .Ok) :
    resolverShape r (r.serve_error_response s) := by
  obtain ⟨h1, h2, h3, h4, h5⟩ := serve_error_response_fields r s
  exact ⟨h1, h2, h3, Or.inr ⟨h4 ▸ hs, h5⟩⟩

theorem serve_file_shape (r : Response) (w : World) (root path : String) (resp : Response)
    (h : r.serve_file w root path = some resp) : resolverShape r resp := by
  simp only [Response.serve_file] at h
  repeat' (split at h)
  all_goals first
    | exact Option.noConfusion h
    | (cases Option.some.inj h
       first
         | exact ⟨rfl, rfl, rfl, Or.inl rfl⟩
         | (refine resolverShape_of_error r _ ?_
            decide))

theorem serve_directory_shape (r : Response) (w : World) (root path : String) (resp : Response)
    (h : r.serve_directory w root path = some resp) : resolverShape r resp := by
  simp only [Response.serve_directory] at h
  repeat' (split at h)
  all_goals first
    | exact Option.noConfusion h
    | (cases Option.some.inj h
       first
         | exact ⟨rfl, rfl, rfl, Or.inl rfl⟩
         | (refine resolverShape_of_error r _ ?_
            decide))

theorem serve_shape (r : Response) (w : World) (root : String) (resp : Response)
    (h : r.serve w root = some resp) : resolverShape r resp := by
  simp only [Response.serve] at h
  split at h
  · split at h
    · exact serve_file_shape r w root _ resp h
    · exact serve_directory_shape r w root _ resp h
  · split at h
    · exact serve_file_shape r w root _ resp h
    · cases Option.some.inj h
      exact resolverShape_of_error r _ (by decide)

/-! ## Lemmas about the Method Transformer -/

theorem method_handle_get (now : String) (r : Response) (h : r.request.method = .GET) :
    Server.method_handle now r = r := by
  simp [Server.method_handle, h, Server.supported_http_methods]

theorem method_handle_head (now : String) (r : Response) (h : r.request.method = .HEAD) :
    Server.method_handle now r = { r with body := "" } := by
  simp [Server.method_handle, h, Server.supported_http_methods]

theorem method_handle_trace (now : String) (r : Response) (h : r.request.method = .TRACE) :
    Server.method_handle now r =
      { r with
        status_code := .Ok
        headers :=
          [("Content-Type", "message/http"),
           ("Content-Length",
            toString ("\r\n" ++ r.request.http_description).utf8ByteSize)]
        body := "\r\n" ++ r.request.http_description } := by
  simp [Server.method_handle, h, Server.supported_http_methods]

theorem method_handle_unsupported (now : String) (r : Response)
    (h : r.request.method ∉ Server.supported_http_methods) :
    Server.method_handle now r =
      { r with
        body := ""
        headers := [("Allow", HttpMethod.comma_separated Server.supported_http_methods)]
        status_code := .MethodNotAllowed } := by
  have h1 : r.request.method ≠ .HEAD := by
    intro e
    exact h (by rw [e]; simp [Server.supported_http_methods])
  have h2 : r.request.method ≠ .OPTIONS := by
    intro e
    exact h (by rw [e]; simp [Server.supported_http_methods])
  have h3 : r.request.method ≠ .TRACE := by
    intro e
    exact h (by rw [e]; simp [Server.supported_http_methods])
  simp [Server.method_handle, h, h1, h2, h3]

theorem Response.new_eq (req : Request) : Response.new req = some (baseResponse req) := rfl

theorem serveOf_eq (w : World) (root : String) (req : Request) :
    serveOf w root req = (baseResponse req).serve w root := rfl

theorem pipeline_eq_some (w : World) (root now : String) (req : Request) (resp : Response) :
    Server.pipeline w root now req = some resp ↔
      ∃ r, (baseResponse req).serve w root = some r ∧ Server.method_handle now r = resp := by
  simp only [Server.pipeline, Response.new_eq, Option.some_bind, Option.map_eq_some']

/-! ## Claim C1 -/

/-- C1, as stated, is false: after `method_handle`, a 405 response carries
exactly an Allow header and an empty body, not the error-page pair.  At the
concrete input `DELETE /x` against an empty filesystem the final status is
405 (an error status), yet the headers are `[Allow]` — not the error-page
pair — and the body is empty, not the minimal HTML error page. -/
theorem c1_counterexample :
    (Server.pipeline wEmpty "/srv" "now" reqDelete).map
        (fun resp => (resp.status_code, resp.headers, resp.body)) =
      some (HttpStatus.MethodNotAllowed, [("Allow", "GET, HEAD, OPTIONS, TRACE")], "") ∧
    ([("Allow", "GET, HEAD, OPTIONS, TRACE")] : List (String × String)) ≠
      [("Content-Type", "text/html"),
       ("Content-Length", toString ("" : String).utf8ByteSize)] ∧
    ("" : String) ≠ errorPageBody HttpStatus.MethodNotAllowed := by
  refine ⟨by decide, by decide, by decide⟩

/-- C1 (amended): for a GET request, at the end of the pipeline (after
`serve` and `method_handle`), whenever the status is an error status the
headers are exactly the error-page pair — Content-Type: text/html and
Content-Length equal to the body's byte length — and the body is the minimal
HTML error page.  (For non-GET methods the Method Transformer rewrites the
response: HEAD and OPTIONS empty the body, OPTIONS appends headers, and an
unsupported method yields a 405 whose headers are exactly an Allow header
with an empty body.) -/
theorem c1_error_page_invariant (w : World) (root now : String) (req : Request)
    (resp : Response) (hm : req.method = .GET)
    (h : Server.pipeline w root now req = some resp)
    (he : resp.status_code ∈
      [HttpStatus.Forbidden, HttpStatus.NotFound, HttpStatus.MethodNotAllowed,
       HttpStatus.InternalServerError]) :
    resp.headers =
      [("Content-Type", "text/html"),
       ("Content-Length", toString resp.body.utf8ByteSize)] ∧
    resp.body = errorPageBody resp.status_code := by
  rw [pipeline_eq_some] at h
  obtain ⟨r, hserve, hmh⟩ := h
  have hshape := serve_shape (baseResponse req) w root r hserve
  have hreq : r.request.method = .GET := by
    rw [hshape.1]
    exact hm
  rw [method_handle_get now r hreq] at hmh
  subst hmh
  have hne : r.status_code ≠ .Ok := by
    intro hok
    rw [hok] at he
    exact absurd he (by decide)
  rcases hshape.2.2.2 with hok | ⟨_, hbody, hheaders⟩
  · exact absurd hok hne
  · exact ⟨hheaders, hbody⟩

/-- Witness for `c1_error_page_invariant`: `GET /missing` against the empty
filesystem ends the pipeline with a 404 in the canonical error-page shape. -/
theorem c1_error_page_invariant_witness :
    (reqC1.method = .GET ∧
     Server.pipeline wEmpty "/srv" "now" reqC1 = some respC1 ∧
     respC1.status_code ∈
       [HttpStatus.Forbidden, HttpStatus.NotFound, HttpStatus.MethodNotAllowed,
        HttpStatus.InternalServerError]) ∧
    (respC1.headers =
      [("Content-Type", "text/html"),
       ("Content-Length", toString respC1.body.utf8ByteSize)] ∧
     respC1.body = errorPageBody respC1.status_code) :=
  ⟨⟨rfl, by decide, by decide⟩,
   c1_error_page_invariant wEmpty "/srv" "now" reqC1 respC1 rfl (by decide) (by decide)⟩

/-! ## Claim C4 -/

/-- C4: the claim matches the spec's stated default ("default to
`application/octet-stream` for unknown/missing extensions"), but the code
calls `path.extension().unwrap()`, which panics when the extension is
missing.  First conjunct: serving the existing, openable, readable regular
file /srv/Makefile (no extension) panics (`none`) instead of producing a
response.  Second conjunct: an extension that is merely absent from the MIME
table (data.xyz) does get the `application/octet-stream` default, so only the
missing-extension half of the claim fails. -/
theorem c4_missing_extension_panics :
    serveOf wMakefile "/srv" ⟨.GET, "/Makefile", "GET /Makefile HTTP/1.1"⟩ = none ∧
    (serveOf wXyz "/srv" ⟨.GET, "/data.xyz", "GET /data.xyz HTTP/1.1"⟩).map
        (fun resp => (resp.status_code, resp.headers, resp.body)) =
      some (HttpStatus.Ok,
        [("Content-Type", "application/octet-stream"), ("Content-Length", "7"),
         ("Content-Disposition", "")],
        "payload") := by
  refine ⟨by decide, by decide⟩

/-! ## Claim C5 -/

/-- C5: for every TRACE request whose pipeline completes, the final response
(after `serve` and `method_handle`) has status 200 regardless of whether the
resource exists, the Content Resolver's headers are all cleared and replaced
by exactly Content-Type: message/http and Content-Length equal to the body's
byte length, and the body is "\r\n" followed by the verbatim textual
description of the original request. -/
theorem c5_trace_forces_200 (w : World) (root now : String) (req : Request)
    (resp : Response) (hm : req.method = .TRACE)
    (h : Server.pipeline w root now req = some resp) :
    resp.status_code = .Ok ∧
    resp.headers =
      [("Content-Type", "message/http"),
       ("Content-Length", toString ("\r\n" ++ req.http_description).utf8ByteSize)] ∧
    resp.body = "\r\n" ++ req.http_description := by
  rw [pipeline_eq_some] at h
  obtain ⟨r, hserve, hmh⟩ := h
  have hshape := serve_shape (baseResponse req) w root r hserve
  have hreq : r.request = req := hshape.1
  rw [method_handle_trace now r (by rw [hreq, hm])] at hmh
  subst hmh
  rw [hreq]
  exact ⟨rfl, rfl, rfl⟩

/-- Witness for `c5_trace_forces_200`: `TRACE /anything` against the empty
filesystem (the resource does not exist; the resolver produced a 404). -/
theorem c5_trace_forces_200_witness :
    (reqTrace.method = .TRACE ∧
     Server.pipeline wEmpty "/srv" "now" reqTrace =
       some
         { request := reqTrace
           http_version := .Http11
           status_code := .Ok
           headers :=
             [("Content-Type", "message/http"), ("Content-Length", "26")]
           cookies := []
           body := "\r\nTRACE /anything HTTP/1.1" }) ∧
    ({ request := reqTrace
       http_version := .Http11
       status_code := .Ok
       headers := [("Content-Type", "message/http"), ("Content-Length", "26")]
       cookies := []
       body := "\r\nTRACE /anything HTTP/1.1" } : Response).status_code = .Ok ∧
    ({ request := reqTrace
       http_version := .Http11
       status_code := .Ok
       headers := [("Content-Type", "message/http"), ("Content-Length", "26")]
       cookies := []
       body := "\r\nTRACE /anything HTTP/1.1" } : Response).headers =
      [("Content-Type", "message/http"),
       ("Content-Length", toString ("\r\n" ++ reqTrace.http_description).utf8ByteSize)] ∧
    ({ request := reqTrace
       http_version := .Http11
       status_code := .Ok
       headers := [("Content-Type", "message/http"), ("Content-Length", "26")]
       cookies := []
       body := "\r\nTRACE /anything HTTP/1.1" } : Response).body =
      "\r\n" ++ reqTrace.http_description :=
  ⟨⟨rfl, by decide⟩,
   c5_trace_forces_200 wEmpty "/srv" "now" reqTrace _ rfl (by decide)⟩

/-! ## Claim C6 -/

/-- C6: for every request whose method is outside {GET, HEAD, OPTIONS,
TRACE}, whatever the path and whatever the Content Resolver produced, the
final response has status 405, an empty body, and an Allow header whose value
is the comma-joined list of exactly GET, HEAD, OPTIONS, TRACE. -/
theorem c6_unsupported_method_405 (w : World) (root now : String) (req : Request)
    (resp : Response) (hm : req.method ∉ Server.supported_http_methods)
    (h : Server.pipeline w root now req = some resp) :
    resp.status_code = .MethodNotAllowed ∧
    resp.body = "" ∧
    resp.headers = [("Allow", HttpMethod.comma_separated Server.supported_http_methods)] ∧
    HttpMethod.comma_separated Server.supported_http_methods = "GET, HEAD, OPTIONS, TRACE" := by
  rw [pipeline_eq_some] at h
  obtain ⟨r, hserve, hmh⟩ := h
  have hshape := serve_shape (baseResponse req) w root r hserve
  have hreq : r.request = req := hshape.1
  rw [method_handle_unsupported now r (by rw [hreq]; exact hm)] at hmh
  subst hmh
  exact ⟨rfl, rfl, rfl, by decide⟩

/-- Witness for `c6_unsupported_method_405`: `DELETE /x` against the empty
filesystem — the 404 the resolver produced is overridden by the 405. -/
theorem c6_unsupported_method_405_witness :
    (reqDelete.method ∉ Server.supported_http_methods ∧
     Server.pipeline wEmpty "/srv" "now" reqDelete =
       some
         { request := reqDelete
           http_version := .Http11
           status_code := .MethodNotAllowed
           headers := [("Allow", "GET, HEAD, OPTIONS, TRACE")]
           cookies := []
           body := "" }) ∧
    ({ request := reqDelete
       http_version := .Http11
       status_code := .MethodNotAllowed
       headers := [("Allow", "GET, HEAD, OPTIONS, TRACE")]
       cookies := []
       body := "" } : Response).status_code = .MethodNotAllowed ∧
    ({ request := reqDelete
       http_version := .Http11
       status_code := .MethodNotAllowed
       headers := [("Allow", "GET, HEAD, OPTIONS, TRACE")]
       cookies := []
       body := "" } : Response).body = "" ∧
    ({ request := reqDelete
       http_version := .Http11
       status_code := .MethodNotAllowed
       headers := [("Allow", "GET, HEAD, OPTIONS, TRACE")]
       cookies := []
       body := "" } : Response).headers =
      [("Allow", HttpMethod.comma_separated Server.supported_http_methods)] ∧
    HttpMethod.comma_separated Server.supported_http_methods = "GET, HEAD, OPTIONS, TRACE" :=
  ⟨⟨by decide, by decide⟩,
   c6_unsupported_method_405 wEmpty "/srv" "now" reqDelete _ (by decide) (by decide)⟩

/-! ## Claim C7 -/

/-- C7: for every draft Response whose request method is HEAD, the Method
Transformer empties the body and changes nothing else — the status, the
headers (including any Content-Length describing the un-sent body) and the
cookies are left exactly as the Content Resolver produced them. -/
theorem c7_head_empties_body_only (now : String) (r : Response)
    (h : r.request.method = .HEAD) :
    (Server.method_handle now r).body = "" ∧
    (Server.method_handle now r).status_code = r.status_code ∧
    (Server.method_handle now r).headers = r.headers ∧
    (Server.method_handle now r).cookies = r.cookies := by
  rw [method_handle_head now r h]
  exact ⟨rfl, rfl, rfl, rfl⟩

/-- Witness for `c7_head_empties_body_only`: a concrete draft response for a
HEAD request, with a Content-Length header describing the 5-byte body that is
dropped. -/
theorem c7_head_empties_body_only_witness :
    (reqHeadDraft.request.method = .HEAD) ∧
    ((Server.method_handle "now" reqHeadDraft).body = "" ∧
     (Server.method_handle "now" reqHeadDraft).status_code = reqHeadDraft.status_code ∧
     (Server.method_handle "now" reqHeadDraft).headers = reqHeadDraft.headers ∧
     (Server.method_handle "now" reqHeadDraft).cookies = reqHeadDraft.cookies) :=
  ⟨rfl, c7_head_empties_body_only "now" reqHeadDraft rfl⟩

/-! ## Claim C8 -/

/-- C8, as stated, is false on one point: the serializer trims the cookie
name and value exactly as it trims header names and values, so a cookie whose
stored name is " a " is written as `Set-Cookie: a=b`, not
`Set-Cookie:  a =b` as the untrimmed reading of the claim prescribes. -/
theorem c8_counterexample :
    Response.to_string respC8 = "HTTP/1.1 200 OK\r\nSet-Cookie: a=b\r\n\r\n" ∧
    Response.to_string respC8 ≠ "HTTP/1.1 200 OK\r\nSet-Cookie:  a =b\r\n\r\n" := by
  refine ⟨by decide, by decide⟩

/-- C8 (amended): the serializer produces exactly, in fixed order, the status
line `<version> <code> <reason>\r\n`, then each header as
`<name-trimmed>: <value-trimmed>\r\n` in list order, then each cookie as
`Set-Cookie: <name-trimmed>=<value-trimmed>\r\n` in list order (cookie names
and values are trimmed too), then one blank `\r\n` line, then the body
verbatim with no re-encoding and no trailing terminator after the body. -/
theorem c8_serializer_layout (r : Response) :
    r.to_string =
      r.http_version.as_str ++ " " ++ toString r.status_code.to_code ++ " " ++
          r.status_code.to_message ++ "\r\n" ++
        String.join (r.headers.map (fun kv => strTrim kv.1 ++ ": " ++ strTrim kv.2 ++ "\r\n")) ++
        String.join
          (r.cookies.map (fun kv => "Set-Cookie: " ++ strTrim kv.1 ++ "=" ++ strTrim kv.2 ++ "\r\n")) ++
        "\r\n" ++ r.body := by
  simp only [Response.to_string]
  cases r.http_version
  simp [HttpVersion.as_str, String.append_assoc]

/-! ## Reduction lemmas for the file-serving branch -/

theorem serveOf_file_branch (w : World) (root : String) (req : Request) (fp : String)
    (hfp : fp = pathJoin root (strDrop req.path 1))
    (hd : w.is_dir fp = false) (hf : w.is_file fp = true) :
    serveOf w root req = (baseResponse req).serve_file w root fp := by
  rw [serveOf_eq]
  have hpath : (baseResponse req).request.path = req.path := rfl
  simp only [Response.serve, hpath, ← hfp, hd, hf]
  simp

theorem serve_file_open_fail (r : Response) (w : World) (root fp relv nm : String)
    (hn : fileNameOpt fp = some nm) (hstrip : stripPrefixPath root fp = some relv)
    (hr1 : strStartsWith relv "/." = false) (hr2 : strStartsWith relv "." = false)
    (hnm : strStartsWith nm "." = false) (hopen : w.open_ok fp = false) :
    r.serve_file w root fp = some (r.serve_error_response .NotFound) := by
  simp [Response.serve_file, hn, hstrip, hr1, hr2, hnm, hopen]

theorem serve_file_read_fail (r : Response) (w : World) (root fp relv nm ext : String)
    (hn : fileNameOpt fp = some nm) (hstrip : stripPrefixPath root fp = some relv)
    (hr1 : strStartsWith relv "/." = false) (hr2 : strStartsWith relv "." = false)
    (hnm : strStartsWith nm "." = false) (hopen : w.open_ok fp = true)
    (hext : extensionOpt fp = some ext) (hread : w.read_to_string fp = none) :
    r.serve_file w root fp = some (r.serve_error_response .InternalServerError) := by
  simp [Response.serve_file, hn, hstrip, hr1, hr2, hnm, hopen, hext, hread]

/-! ## Claim C3 -/

/-- C3, as stated, is false: when opening the file fails, the code's
`Err(_)` arm of `File::open` emits a 404 Not Found error page, not the 500
the claim (and the spec's "on failure emit 500") prescribes.  Concretely, for
`GET /f.txt` where /srv/f.txt exists as a regular file but cannot be opened,
the response status is 404 — and 404 is not 500. -/
theorem c3_counterexample :
    (serveOf wOpenFail "/srv" ⟨.GET, "/f.txt", "GET /f.txt HTTP/1.1"⟩).map
        Response.status_code = some HttpStatus.NotFound ∧
    HttpStatus.NotFound ≠ HttpStatus.InternalServerError := by
  refine ⟨by decide, by decide⟩

/-- C3 (amended): in `serve_file`, for every resolved path that is a regular
file and passes the dot-file checks, if opening the file fails the response
is a 404 Not Found error page; the 500 Internal Server Error error page is
produced when the file opens but reading it fails. -/
theorem c3_open_failure_is_404 (w : World) (root : String) (req : Request)
    (fp relv nm : String)
    (hfp : fp = pathJoin root (strDrop req.path 1))
    (hd : w.is_dir fp = false) (hf : w.is_file fp = true)
    (hn : fileNameOpt fp = some nm)
    (hstrip : stripPrefixPath root fp = some relv)
    (hr1 : strStartsWith relv "/." = false) (hr2 : strStartsWith relv "." = false)
    (hnm : strStartsWith nm "." = false) :
    (w.open_ok fp = false →
      (serveOf w root req).map Response.status_code = some HttpStatus.NotFound) ∧
    (∀ ext, w.open_ok fp = true → extensionOpt fp = some ext →
      w.read_to_string fp = none →
      (serveOf w root req).map Response.status_code =
        some HttpStatus.InternalServerError) := by
  rw [serveOf_file_branch w root req fp hfp hd hf]
  constructor
  · intro hopen
    rw [serve_file_open_fail (baseResponse req) w root fp relv nm hn hstrip hr1 hr2 hnm hopen]
    rfl
  · intro ext hopen hext hread
    rw [serve_file_read_fail (baseResponse req) w root fp relv nm ext hn hstrip hr1 hr2 hnm
      hopen hext hread]
    rfl

/-- Witness for `c3_open_failure_is_404`: /srv/f.txt exists but cannot be
opened; `GET /f.txt` yields 404. -/
theorem c3_open_failure_is_404_witness :
    (("/srv/f.txt" : String) = pathJoin "/srv" (strDrop "/f.txt" 1) ∧
     wOpenFail.is_dir "/srv/f.txt" = false ∧ wOpenFail.is_file "/srv/f.txt" = true ∧
     fileNameOpt "/srv/f.txt" = some "f.txt" ∧
     stripPrefixPath "/srv" "/srv/f.txt" = some "f.txt" ∧
     strStartsWith "f.txt" "/." = false ∧ strStartsWith "f.txt" "." = false ∧
     wOpenFail.open_ok "/srv/f.txt" = false) ∧
    ((wOpenFail.open_ok "/srv/f.txt" = false →
      (serveOf wOpenFail "/srv" ⟨.GET, "/f.txt", "GET /f.txt HTTP/1.1"⟩).map
          Response.status_code = some HttpStatus.NotFound) ∧
     (∀ ext, wOpenFail.open_ok "/srv/f.txt" = true →
       extensionOpt "/srv/f.txt" = some ext →
       wOpenFail.read_to_string "/srv/f.txt" = none →
       (serveOf wOpenFail "/srv" ⟨.GET, "/f.txt", "GET /f.txt HTTP/1.1"⟩).map
           Response.status_code = some HttpStatus.InternalServerError)) :=
  ⟨⟨by decide, by decide, by decide, by decide, by decide, by decide, by decide, by decide⟩,
   c3_open_failure_is_404 wOpenFail "/srv" ⟨.GET, "/f.txt", "GET /f.txt HTTP/1.1"⟩
     "/srv/f.txt" "f.txt" "f.txt" (by decide) (by decide) (by decide) (by decide) (by decide)
     (by decide) (by decide) (by decide)⟩

/-! ## Claim C10 -/

/-- C10, as stated, is false on one family of inputs: for an existing,
openable regular file whose contents are not valid UTF-8 but whose path has
no extension (here /srv/data), `serve_file` panics at
`path.extension().unwrap()` before ever reading the file, so no 500 response
is produced at all (the model returns `none`). -/
theorem c10_counterexample :
    serveOf wBadUtf8NoExt "/srv" ⟨.GET, "/data", "GET /data HTTP/1.1"⟩ = none := by
  decide

/-- C10 (amended): for every existing, openable regular file that passes the
dot-file checks and whose path has an extension, if the contents are not
valid UTF-8 (`read_to_string` fails) the result is the 500 Internal Server
Error error page rather than the file's bytes; only files whose contents
decode as UTF-8 are ever served with 200.  (Extension-less such files hit the
missing-extension panic first — see the C4 analysis.) -/
theorem c10_non_utf8_file_is_500 (w : World) (root : String) (req : Request)
    (fp relv nm ext : String)
    (hfp : fp = pathJoin root (strDrop req.path 1))
    (hd : w.is_dir fp = false) (hf : w.is_file fp = true)
    (hn : fileNameOpt fp = some nm)
    (hstrip : stripPrefixPath root fp = some relv)
    (hr1 : strStartsWith relv "/." = false) (hr2 : strStartsWith relv "." = false)
    (hnm : strStartsWith nm "." = false) (hopen : w.open_ok fp = true)
    (hext : extensionOpt fp = some ext) (hread : w.read_to_string fp = none) :
    (serveOf w root req).map (fun resp => (resp.status_code, resp.body)) =
      some (HttpStatus.InternalServerError, errorPageBody HttpStatus.InternalServerError) := by
  rw [serveOf_file_branch w root req fp hfp hd hf]
  rw [serve_file_read_fail (baseResponse req) w root fp relv nm ext hn hstrip hr1 hr2 hnm
    hopen hext hread]
  rfl

/-- Witness for `c10_non_utf8_file_is_500`: /srv/f.bin opens but
`read_to_string` fails; `GET /f.bin` yields the 500 error page. -/
theorem c10_non_utf8_file_is_500_witness :
    (("/srv/f.bin" : String) = pathJoin "/srv" (strDrop "/f.bin" 1) ∧
     wBadUtf8.is_dir "/srv/f.bin" = false ∧ wBadUtf8.is_file "/srv/f.bin" = true ∧
     fileNameOpt "/srv/f.bin" = some "f.bin" ∧
     stripPrefixPath "/srv" "/srv/f.bin" = some "f.bin" ∧
     strStartsWith "f.bin" "/." = false ∧ strStartsWith "f.bin" "." = false ∧
     wBadUtf8.open_ok "/srv/f.bin" = true ∧ extensionOpt "/srv/f.bin" = some "bin" ∧
     wBadUtf8.read_to_string "/srv/f.bin" = none) ∧
    (serveOf wBadUtf8 "/srv" ⟨.GET, "/f.bin", "GET /f.bin HTTP/1.1"⟩).map
        (fun resp => (resp.status_code, resp.body)) =
      some (HttpStatus.InternalServerError, errorPageBody HttpStatus.InternalServerError) :=
  ⟨⟨by decide, by decide, by decide, by decide, by decide, by decide, by decide, by decide,
    by decide, by decide⟩,
   c10_non_utf8_file_is_500 wBadUtf8 "/srv" ⟨.GET, "/f.bin", "GET /f.bin HTTP/1.1"⟩
     "/srv/f.bin" "f.bin" "f.bin" "bin" (by decide) (by decide) (by decide) (by decide)
     (by decide) (by decide) (by decide) (by decide) (by decide) (by decide) (by decide)⟩

/-! ## String lemmas for the dot-path analysis -/

theorem startsWith_dot_ne_empty (rel : String) (h : strStartsWith rel "." = true) :
    rel ≠ "" := by
  rw [strStartsWith_iff] at h
  obtain ⟨t, ht⟩ := h
  intro hcontra
  rw [hcontra] at ht
  exact absurd ht (by simp)

theorem startsWith_dot_not_slash (rel : String) (h : strStartsWith rel "." = true) :
    strStartsWith rel "/" = false := by
  rw [strStartsWith_iff] at h
  obtain ⟨t, ht⟩ := h
  cases rel with
  | mk l =>
    have hl : l = '.' :: t := by simpa using ht.symm
    subst hl
    show List.isPrefixOf ['/'] ('.' :: t) = false
    simp [List.isPrefixOf]

theorem startsWith_append_left (s x p : String) (h : strStartsWith s p = true) :
    strStartsWith (s ++ x) p = true := by
  rw [strStartsWith_iff] at h ⊢
  rw [String.data_append]
  exact h.trans (List.prefix_append _ _)

theorem strEndsWith_append_ne (a b : String) (hb : b ≠ "") :
    strEndsWith (a ++ b) "/" = strEndsWith b "/" := by
  have hbd : b.data ≠ [] := by
    intro hcontra
    apply hb
    cases b with
    | mk m =>
      have hm : m = [] := by simpa using hcontra
      subst hm
      rfl
  obtain ⟨d, rest, hrev⟩ : ∃ d rest, b.data.reverse = d :: rest := by
    cases hbrev : b.data.reverse with
    | nil =>
      exact absurd (by simpa using congrArg List.reverse hbrev) hbd
    | cons d rest => exact ⟨d, rest, rfl⟩
  show List.isPrefixOf _ _ = List.isPrefixOf _ _
  rw [String.data_append, List.reverse_append, hrev]
  show List.isPrefixOf ['/'] (d :: (rest ++ a.data.reverse)) = List.isPrefixOf ['/'] (d :: rest)
  simp [List.isPrefixOf]

theorem endsWith_slash_decompose (rel : String) (h : strEndsWith rel "/" = true) :
    ∃ a, rel.data = a ++ ['/'] := by
  rw [strEndsWith_iff] at h
  obtain ⟨t, ht⟩ := h
  exact ⟨t, ht.symm⟩

theorem takeWhile_append_stop {α} (p : α → Bool) (l₁ : List α) (c : α) (l₂ : List α)
    (h : ∀ x ∈ l₁, p x = true) (hc : p c = false) :
    (l₁ ++ c :: l₂).takeWhile p = l₁ := by
  induction l₁ with
  | nil => simp [List.takeWhile_cons, hc]
  | cons x t ih =>
    have hx : p x = true := h x (List.mem_cons_self _ _)
    simp only [List.cons_append, List.takeWhile_cons, hx, if_pos]
    rw [ih (fun y hy => h y (List.mem_cons_of_mem _ hy))]

theorem fileNameOpt_slash_name (l name : List Char) (h1 : name ≠ [])
    (h2 : ∀ c ∈ name, c ≠ '/') (h3 : name ≠ ['.', '.']) :
    fileNameOpt ⟨l ++ '/' :: name⟩ = some ⟨name⟩ := by
  obtain ⟨d, rest, hrev⟩ : ∃ d rest, name.reverse = d :: rest := by
    cases hnrev : name.reverse with
    | nil => exact absurd (by simpa using congrArg List.reverse hnrev) h1
    | cons d rest => exact ⟨d, rest, rfl⟩
  have hd : d ∈ name := by
    have hmem : d ∈ name.reverse := hrev ▸ List.mem_cons_self _ _
    simpa using hmem
  have hdslash : d ≠ '/' := h2 d hd
  have hrevdata : (l ++ '/' :: name).reverse = d :: (rest ++ '/' :: l.reverse) := by
    rw [show ('/' :: name) = ['/'] ++ name from rfl, ← List.append_assoc, List.reverse_append,
      hrev]
    simp
  have hdrop :
      (((l ++ '/' :: name).reverse.dropWhile (fun c => decide (c = '/'))).reverse :
        List Char) = l ++ '/' :: name := by
    rw [hrevdata, List.dropWhile_cons, if_neg (by simp [hdslash]), ← hrevdata,
      List.reverse_reverse]
  have hafter : afterLastSlash (l ++ '/' :: name) = name := by
    unfold afterLastSlash
    rw [hrevdata]
    rw [show d :: (rest ++ '/' :: l.reverse) = (d :: rest) ++ '/' :: l.reverse from rfl]
    rw [takeWhile_append_stop _ (d :: rest) '/' l.reverse ?hall (by simp)]
    · rw [← hrev, List.reverse_reverse]
    case hall =>
      intro x hx
      have hxname : x ∈ name := by
        have hmem : x ∈ name.reverse := hrev ▸ hx
        simpa using hmem
      simp [h2 x hxname]
  simp only [fileNameOpt]
  rw [hdrop, hafter, if_neg h1, if_neg h3]

theorem stripPrefixPath_append (root s : String) :
    stripPrefixPath root (root ++ "/" ++ s) = some s := by
  have hone : ("/" : String).length = 1 := by decide
  have hne : root ++ "/" ++ s ≠ root := by
    intro hcontra
    have hlen := congrArg String.length hcontra
    rw [strLength_append, strLength_append, hone] at hlen
    omega
  have hsw : strStartsWith (root ++ "/" ++ s) (root ++ "/") = true := by
    rw [strStartsWith_iff, String.data_append]
    exact List.prefix_append _ _
  rw [stripPrefixPath, if_neg hne, if_pos hsw]
  exact congrArg some (strDrop_append (root ++ "/") s)

/-! ## Branch lemmas for the Content Resolver -/

theorem serveOf_dir_branch (w : World) (root : String) (req : Request) (fp : String)
    (hfp : fp = pathJoin root (strDrop req.path 1))
    (hd : w.is_dir fp = true) (hidx : w.is_file (joinRel fp "index.html") = false) :
    serveOf w root req = (baseResponse req).serve_directory w root fp := by
  rw [serveOf_eq]
  have hpath : (baseResponse req).request.path = req.path := rfl
  simp only [Response.serve, hpath, ← hfp, hd, hidx]
  simp

theorem serveOf_index_branch (w : World) (root : String) (req : Request) (fp : String)
    (hfp : fp = pathJoin root (strDrop req.path 1))
    (hd : w.is_dir fp = true) (hidx : w.is_file (joinRel fp "index.html") = true) :
    serveOf w root req = (baseResponse req).serve_file w root (joinRel fp "index.html") := by
  rw [serveOf_eq]
  have hpath : (baseResponse req).request.path = req.path := rfl
  simp only [Response.serve, hpath, ← hfp, hd, hidx]
  simp

theorem serveOf_not_found (w : World) (root : String) (req : Request) (fp : String)
    (hfp : fp = pathJoin root (strDrop req.path 1))
    (hd : w.is_dir fp = false) (hf : w.is_file fp = false) :
    serveOf w root req = some ((baseResponse req).serve_error_response .NotFound) := by
  rw [serveOf_eq]
  have hpath : (baseResponse req).request.path = req.path := rfl
  simp only [Response.serve, hpath, ← hfp, hd, hf]
  simp

theorem serve_directory_forbidden (r : Response) (w : World) (root path rel : String)
    (hstrip : stripPrefixPath root path = some rel)
    (hdot : strStartsWith rel "." = true) :
    r.serve_directory w root path = some (r.serve_error_response .Forbidden) := by
  simp [Response.serve_directory, hstrip, startsWith_slash_dot, hdot]

theorem serve_file_forbidden_by_rel (r : Response) (w : World) (root fp relv nm : String)
    (hn : fileNameOpt fp = some nm) (hstrip : stripPrefixPath root fp = some relv)
    (hdot : strStartsWith relv "." = true)
    (hwk : strContains relv ".well-known" = false) :
    r.serve_file w root fp = some (r.serve_error_response .Forbidden) := by
  simp [Response.serve_file, hn, hstrip, hdot, hwk]

theorem serve_file_not_forbidden (r : Response) (w : World) (root fp relv nm : String)
    (resp : Response)
    (hn : fileNameOpt fp = some nm) (hstrip : stripPrefixPath root fp = some relv)
    (hwk : strContains relv ".well-known" = true)
    (hnm : strStartsWith nm "." = false)
    (h : r.serve_file w root fp = some resp) : resp.status_code ≠ .Forbidden := by
  simp only [Response.serve_file, hn, hstrip, Option.getD_some, hwk, hnm, Bool.not_true,
    Bool.and_false, Bool.false_and, Bool.false_eq_true, if_false] at h
  repeat' split at h
  all_goals first
    | exact Option.noConfusion h
    | (cases Option.some.inj h
       intro hcontra
       exact HttpStatus.noConfusion hcontra)

theorem strExt (s t : String) (h : s.data = t.data) : s = t := by
  cases s with
  | mk a =>
    cases t with
    | mk b =>
      have hab : a = b := by simpa using h
      rw [hab]

/-! ## Claim C2 -/

/-- C2, as stated, is false: the dot-path check lives inside `serve_file` and
`serve_directory`, which are reached only when the joined path exists on
disk; a request for a dot-path that does not exist falls through to the 404
arm of `serve`.  Concretely, `GET /.secret` against the empty filesystem
yields 404 Not Found, not the claimed 403 Forbidden. -/
theorem c2_counterexample :
    (serveOf wEmpty "/srv" ⟨.GET, "/.secret", "GET /.secret HTTP/1.1"⟩).map
        Response.status_code = some HttpStatus.NotFound ∧
    HttpStatus.NotFound ≠ HttpStatus.Forbidden := by
  refine ⟨by decide, by decide⟩

/-- C2 (amended): for every request whose root-relative resolved path starts
with `.`, provided the target exists on disk the Content Resolver produces
403 Forbidden: (a) an existing dot-directory served as a listing is 403 even
when the path contains `.well-known` (the exemption does not apply on the
directory branch); (b) an existing dot-path regular file not containing
`.well-known` is 403; (c) an existing dot-directory with an index.html, not
containing `.well-known`, is 403; (d) when the target does not exist the
result is 404 Not Found, not 403; and (e) the `.well-known` exemption applies
on the file branch: a dot-path regular file whose relative path contains
`.well-known` and whose bare name is not itself dot-blocked is never 403.
(`contains` is the substring test of the source.) -/
theorem c2_dot_paths (w : World) (root rel : String) (req : Request)
    (hpath : req.path = "/" ++ rel)
    (hdot : strStartsWith rel "." = true) :
    (w.is_dir (pathJoin root rel) = true →
     w.is_file (joinRel (pathJoin root rel) "index.html") = false →
     (serveOf w root req).map Response.status_code = some HttpStatus.Forbidden) ∧
    (∀ nm, w.is_dir (pathJoin root rel) = false →
     w.is_file (pathJoin root rel) = true →
     fileNameOpt (pathJoin root rel) = some nm →
     strContains rel ".well-known" = false →
     (serveOf w root req).map Response.status_code = some HttpStatus.Forbidden) ∧
    (w.is_dir (pathJoin root rel) = true →
     w.is_file (joinRel (pathJoin root rel) "index.html") = true →
     strContains rel ".well-known" = false →
     (serveOf w root req).map Response.status_code = some HttpStatus.Forbidden) ∧
    (w.is_dir (pathJoin root rel) = false →
     w.is_file (pathJoin root rel) = false →
     (serveOf w root req).map Response.status_code = some HttpStatus.NotFound) ∧
    (∀ nm resp, w.is_dir (pathJoin root rel) = false →
     w.is_file (pathJoin root rel) = true →
     fileNameOpt (pathJoin root rel) = some nm →
     strContains rel ".well-known" = true →
     strStartsWith nm "." = false →
     serveOf w root req = some resp → resp.status_code ≠ HttpStatus.Forbidden) := by
  have hne : rel ≠ "" := startsWith_dot_ne_empty rel hdot
  have hslash : strStartsWith rel "/" = false := startsWith_dot_not_slash rel hdot
  have hfp : pathJoin root rel = pathJoin root (strDrop req.path 1) := by
    rw [hpath, strDrop_one_slash]
  have hstrip : stripPrefixPath root (pathJoin root rel) = some rel :=
    stripPrefixPath_join root rel hslash
  have hfpe : pathJoin root rel = root ++ "/" ++ rel := pathJoin_eq_append root rel hslash hne
  refine ⟨?_, ?_, ?_, ?_, ?_⟩
  · intro hd hidx
    rw [serveOf_dir_branch w root req (pathJoin root rel) hfp hd hidx,
      serve_directory_forbidden (baseResponse req) w root (pathJoin root rel) rel hstrip hdot]
    rfl
  · intro nm hd hf hn hwk
    rw [serveOf_file_branch w root req (pathJoin root rel) hfp hd hf,
      serve_file_forbidden_by_rel (baseResponse req) w root (pathJoin root rel) rel nm hn
        hstrip hdot hwk]
    rfl
  · intro hd hidx hwk
    rw [serveOf_index_branch w root req (pathJoin root rel) hfp hd hidx]
    by_cases hend : strEndsWith rel "/" = true
    · obtain ⟨a, ha⟩ := endsWith_slash_decompose rel hend
      have hendfp : strEndsWith (pathJoin root rel) "/" = true := by
        rw [hfpe, strEndsWith_append_ne (root ++ "/") rel hne]
        exact hend
      have hjoin : joinRel (pathJoin root rel) "index.html" =
          root ++ "/" ++ (rel ++ "index.html") := by
        rw [joinRel, if_pos hendfp, hfpe]
        simp only [String.append_assoc]
      have hreld : (rel ++ "index.html").data = a ++ '/' :: ("index.html" : String).data := by
        rw [String.data_append, ha, List.append_assoc, List.singleton_append]
      have hstrip' : stripPrefixPath root (joinRel (pathJoin root rel) "index.html") =
          some (rel ++ "index.html") := by
        rw [hjoin]
        exact stripPrefixPath_append root (rel ++ "index.html")
      have hn : fileNameOpt (joinRel (pathJoin root rel) "index.html") = some "index.html" := by
        rw [hjoin]
        have hd2 : (root ++ "/" ++ (rel ++ "index.html")).data =
            ((root ++ "/").data ++ a) ++ '/' :: ("index.html" : String).data := by
          rw [String.data_append, hreld, List.append_assoc]
        rw [strExt (root ++ "/" ++ (rel ++ "index.html"))
          ⟨((root ++ "/").data ++ a) ++ '/' :: ("index.html" : String).data⟩ hd2]
        exact fileNameOpt_slash_name _ _ (by decide) (by decide) (by decide)
      have hdot' : strStartsWith (rel ++ "index.html") "." = true :=
        startsWith_append_left rel "index.html" "." hdot
      have hwk' : strContains (rel ++ "index.html") ".well-known" = false := by
        by_contra hcontra
        rw [Bool.not_eq_false, strContains_iff, hreld] at hcontra
        rcases infix_append_sep _ a _ (by decide) (by decide) hcontra with hc | hc
        · have htr : strContains rel ".well-known" = true := by
            rw [strContains_iff, ha]
            exact hc.trans (List.prefix_append a ['/']).isInfix
          rw [hwk] at htr
          exact Bool.noConfusion htr
        · exact absurd hc (by decide)
      rw [serve_file_forbidden_by_rel (baseResponse req) w root _ (rel ++ "index.html")
        "index.html" hn hstrip' hdot' hwk']
      rfl
    · have hendf : strEndsWith rel "/" = false := by simpa using hend
      have hendfp : strEndsWith (pathJoin root rel) "/" = false := by
        rw [hfpe, strEndsWith_append_ne (root ++ "/") rel hne]
        exact hendf
      have hjoin : joinRel (pathJoin root rel) "index.html" =
          root ++ "/" ++ (rel ++ "/" ++ "index.html") := by
        rw [joinRel, if_neg (by simp [hendfp]), hfpe]
        simp only [String.append_assoc]
      have hreld : (rel ++ "/" ++ "index.html").data =
          rel.data ++ '/' :: ("index.html" : String).data := by
        rw [String.data_append, String.data_append, List.append_assoc]
        rfl
      have hstrip' : stripPrefixPath root (joinRel (pathJoin root rel) "index.html") =
          some (rel ++ "/" ++ "index.html") := by
        rw [hjoin]
        exact stripPrefixPath_append root (rel ++ "/" ++ "index.html")
      have hn : fileNameOpt (joinRel (pathJoin root rel) "index.html") = some "index.html" := by
        rw [hjoin]
        have hd2 : (root ++ "/" ++ (rel ++ "/" ++ "index.html")).data =
            ((root ++ "/").data ++ rel.data) ++ '/' :: ("index.html" : String).data := by
          rw [String.data_append, hreld, List.append_assoc]
        rw [strExt (root ++ "/" ++ (rel ++ "/" ++ "index.html"))
          ⟨((root ++ "/").data ++ rel.data) ++ '/' :: ("index.html" : String).data⟩ hd2]
        exact fileNameOpt_slash_name _ _ (by decide) (by decide) (by decide)
      have hdot' : strStartsWith (rel ++ "/" ++ "index.html") "." = true :=
        startsWith_append_left (rel ++ "/") "index.html" "."
          (startsWith_append_left rel "/" "." hdot)
      have hwk' : strContains (rel ++ "/" ++ "index.html") ".well-known" = false := by
        by_contra hcontra
        rw [Bool.not_eq_false, strContains_iff, hreld] at hcontra
        rcases infix_append_sep _ rel.data _ (by decide) (by decide) hcontra with hc | hc
        · have htr : strContains rel ".well-known" = true := by
            rw [strContains_iff]
            exact hc
          rw [hwk] at htr
          exact Bool.noConfusion htr
        · exact absurd hc (by decide)
      rw [serve_file_forbidden_by_rel (baseResponse req) w root _ (rel ++ "/" ++ "index.html")
        "index.html" hn hstrip' hdot' hwk']
      rfl
  · intro hd hf
    rw [serveOf_not_found w root req (pathJoin root rel) hfp hd hf]
    rfl
  · intro nm resp hd hf hn hwk hnm hserve
    rw [serveOf_file_branch w root req (pathJoin root rel) hfp hd hf] at hserve
    exact serve_file_not_forbidden (baseResponse req) w root (pathJoin root rel) rel nm resp
      hn hstrip hwk hnm hserve

/-- Witness for `c2_dot_paths` (conjunct (a)): `GET /.git` where /srv/.git is
an existing directory yields 403. -/
theorem c2_dot_paths_witness :
    (reqC2.path = "/" ++ ".git" ∧ strStartsWith ".git" "." = true ∧
     wDotDir.is_dir (pathJoin "/srv" ".git") = true ∧
     wDotDir.is_file (joinRel (pathJoin "/srv" ".git") "index.html") = false) ∧
    (serveOf wDotDir "/srv" reqC2).map Response.status_code = some HttpStatus.Forbidden :=
  ⟨⟨by decide, by decide, by decide, by decide⟩,
   (c2_dot_paths wDotDir "/srv" ".git" reqC2 (by decide) (by decide)).1 (by decide) (by decide)⟩

/-! ## Lemmas for the directory-listing analysis (C9) -/

theorem filterMap_eq_map_filter {α β : Type} (f : α → Option β) (q : α → Bool) (g : α → β)
    (l : List α) (h : ∀ a ∈ l, f a = if q a then some (g a) else none) :
    l.filterMap f = (l.filter q).map g := by
  induction l with
  | nil => rfl
  | cons a t ih =>
    rw [List.filterMap_cons, h a (List.mem_cons_self _ _), List.filter_cons]
    by_cases hq : q a = true
    · rw [if_pos hq, if_pos hq, List.map_cons]
      show g a :: t.filterMap f = g a :: (t.filter q).map g
      rw [ih (fun x hx => h x (List.mem_cons_of_mem _ hx))]
    · rw [if_neg hq, if_neg hq]
      exact ih (fun x hx => h x (List.mem_cons_of_mem _ hx))

theorem replaceBackslash_id (s : String) (h : ∀ c ∈ s.data, c ≠ '\\') :
    replaceBackslash s = s := by
  apply strExt
  have hdata : (replaceBackslash s).data = s.data.map (fun c => if c = '\\' then '/' else c) :=
    rfl
  rw [hdata]
  have hmap : s.data.map (fun c => if c = '\\' then '/' else c) = s.data.map id :=
    List.map_congr_left (fun c hc => by simp [h c hc])
  rw [hmap, List.map_id]

theorem noBS_append (a b : String) (ha : ∀ c ∈ a.data, c ≠ '\\')
    (hb : ∀ c ∈ b.data, c ≠ '\\') : ∀ c ∈ (a ++ b).data, c ≠ '\\' := by
  intro c hc
  rw [String.data_append] at hc
  rcases List.mem_append.mp hc with hm | hm
  · exact ha c hm
  · exact hb c hm

theorem strEndsWith_root_slash (root : String) : strEndsWith (root ++ "/") "/" = true := by
  rw [strEndsWith_append_ne root "/" (by decide)]
  decide

theorem renderLis_map {α : Type} (root : String) (l : List α) (nm h : α → String) :
    Response.renderLis root (l.map (fun a => (nm a, root ++ h a))) =
      some (joinStrings (l.map (fun a => "<li><a href='" ++ h a ++ "'>" ++ nm a ++ "</a></li>"))) := by
  induction l with
  | nil => rfl
  | cons a t ih =>
    rw [List.map_cons, List.map_cons]
    show Response.renderLis root ((nm a, root ++ h a) :: _) = _
    unfold Response.renderLis
    rw [stripPrefixStr_self root (h a), ih]
    rfl

theorem walk_dir_sep (w : World) (root sep dirPath : String)
    (hjoin : ∀ name : String, name ≠ "" → joinRel dirPath name = root ++ sep ++ name)
    (hbs_rs : ∀ c ∈ (root ++ sep).data, c ≠ '\\')
    (hnames : ∀ e ∈ w.read_dir dirPath,
      e.name ≠ "" ∧ (∀ c ∈ e.name.data, c ≠ '\\') ∧ strEndsWith e.name "/" = false) :
    Utils.walk_dir w dirPath =
      ((w.read_dir dirPath).filter (fun e => Utils.is_valid_entry e.name)).map
        (fun e =>
          if e.is_dir then ("directory", e.name, root ++ sep ++ e.name ++ "/")
          else ("file", e.name, root ++ sep ++ e.name)) := by
  unfold Utils.walk_dir
  apply filterMap_eq_map_filter
  intro e he
  obtain ⟨hn1, hbsn, hend⟩ := hnames e he
  dsimp only
  by_cases hv : Utils.is_valid_entry e.name = true
  · rw [if_pos hv, if_pos hv]
    have hpath : replaceBackslash (joinRel dirPath e.name) = root ++ sep ++ e.name := by
      rw [hjoin e.name hn1]
      exact replaceBackslash_id _ (noBS_append (root ++ sep) e.name hbs_rs hbsn)
    have hend2 : strEndsWith (root ++ sep ++ e.name) "/" = false := by
      rw [strEndsWith_append_ne (root ++ sep) e.name hn1]
      exact hend
    rw [hpath, hend2]
    cases e.is_dir <;> rfl
  · rw [if_neg hv, if_neg hv]

theorem serve_directory_render (r : Response) (w : World) (root rel sep : String)
    (hstrip : stripPrefixPath root (pathJoin root rel) = some rel)
    (hdot : strStartsWith rel "." = false)
    (hjoin : ∀ name : String, name ≠ "" → joinRel (pathJoin root rel) name = root ++ sep ++ name)
    (hbs_rs : ∀ c ∈ (root ++ sep).data, c ≠ '\\')
    (hnames : ∀ e ∈ w.read_dir (pathJoin root rel),
      e.name ≠ "" ∧ (∀ c ∈ e.name.data, c ≠ '\\') ∧ strEndsWith e.name "/" = false)
    (hhref : ∀ e : RawEntry, sep ++ e.name ++ (if e.is_dir then "/" else "") = specHref rel e) :
    r.serve_directory w root (pathJoin root rel) =
      some
        { r with
          body := specDirBody w root rel
          status_code := .Ok
          headers :=
            [("Content-Type", "text/html"),
             ("Content-Length", toString (specDirBody w root rel).utf8ByteSize)] } := by
  have hcond : (strStartsWith ("/" ++ rel) "/." || strStartsWith ("/" ++ rel) ".") = false := by
    rw [startsWith_slash_dot, startsWith_slash_ne_dot, hdot]
    rfl
  simp only [Response.serve_directory, hstrip, Option.getD_some, hcond, Bool.false_eq_true,
    if_false]
  rw [walk_dir_sep w root sep (pathJoin root rel) hjoin hbs_rs hnames]
  have hfolders :
      (((w.read_dir (pathJoin root rel)).filter (fun e => Utils.is_valid_entry e.name)).map
        (fun e =>
          if e.is_dir then ("directory", e.name, root ++ sep ++ e.name ++ "/")
          else ("file", e.name, root ++ sep ++ e.name))).filterMap
          (fun t => if t.1 = "directory" then some t.2 else none) =
      (((w.read_dir (pathJoin root rel)).filter (fun e => Utils.is_valid_entry e.name)).filter
          (fun e => e.is_dir)).map
        (fun e => (e.name, root ++ (sep ++ e.name ++ "/"))) := by
    rw [List.filterMap_map]
    apply filterMap_eq_map_filter
    intro e _
    cases hd : e.is_dir <;> simp [Function.comp, hd, String.append_assoc]
  have hfiles :
      (((w.read_dir (pathJoin root rel)).filter (fun e => Utils.is_valid_entry e.name)).map
        (fun e =>
          if e.is_dir then ("directory", e.name, root ++ sep ++ e.name ++ "/")
          else ("file", e.name, root ++ sep ++ e.name))).filterMap
          (fun t => if t.1 = "directory" then none else some t.2) =
      (((w.read_dir (pathJoin root rel)).filter (fun e => Utils.is_valid_entry e.name)).filter
          (fun e => !e.is_dir)).map
        (fun e => (e.name, root ++ (sep ++ e.name))) := by
    rw [List.filterMap_map]
    apply filterMap_eq_map_filter
    intro e _
    cases hd : e.is_dir <;> simp [Function.comp, hd, String.append_assoc]
  rw [hfolders, hfiles, renderLis_map, renderLis_map]
  dsimp only
  have hjd :
      (((w.read_dir (pathJoin root rel)).filter (fun e => Utils.is_valid_entry e.name)).filter
          (fun e => e.is_dir)).map
        (fun e => "<li><a href='" ++ (sep ++ e.name ++ "/") ++ "'>" ++ e.name ++ "</a></li>") =
      (((w.read_dir (pathJoin root rel)).filter (fun e => Utils.is_valid_entry e.name)).filter
          (fun e => e.is_dir)).map (specLi rel) := by
    apply List.map_congr_left
    intro e he
    have hd : e.is_dir = true := by simpa using (List.mem_filter.mp he).2
    rw [specLi, ← hhref e, hd]
    simp
  have hjf :
      (((w.read_dir (pathJoin root rel)).filter (fun e => Utils.is_valid_entry e.name)).filter
          (fun e => !e.is_dir)).map
        (fun e => "<li><a href='" ++ (sep ++ e.name) ++ "'>" ++ e.name ++ "</a></li>") =
      (((w.read_dir (pathJoin root rel)).filter (fun e => Utils.is_valid_entry e.name)).filter
          (fun e => !e.is_dir)).map (specLi rel) := by
    apply List.map_congr_left
    intro e he
    have hd : e.is_dir = false := by simpa using (List.mem_filter.mp he).2
    rw [specLi, ← hhref e, hd]
    simp
  rw [hjd, hjf]
  have hlen :
      ((((w.read_dir (pathJoin root rel)).filter (fun e => Utils.is_valid_entry e.name)).map
        (fun e =>
          if e.is_dir then ("directory", e.name, root ++ sep ++ e.name ++ "/")
          else ("file", e.name, root ++ sep ++ e.name))).length = 0) ↔
      (specEntries w (pathJoin root rel) = []) := by
    rw [List.length_map, List.length_eq_zero]
    rfl
  have hite1 :
      (if ("/" ++ rel) ≠ "/" then "<li><a href='../'>..</a></li>" else "") =
        (if rel ≠ "" then "<li><a href='../'>..</a></li>" else "") :=
    if_congr (not_congr (slash_append_eq_slash_iff rel)) rfl rfl
  have hite2 :
      (if ((((w.read_dir (pathJoin root rel)).filter (fun e => Utils.is_valid_entry e.name)).map
          (fun e =>
            if e.is_dir then ("directory", e.name, root ++ sep ++ e.name ++ "/")
            else ("file", e.name, root ++ sep ++ e.name))).length = 0) then
          "<li><b>Empty Folder</b></li>" else "") =
        (if specEntries w (pathJoin root rel) = [] then "<li><b>Empty Folder</b></li>" else "") :=
    if_congr hlen rfl rfl
  rw [hite1, hite2]
  rfl

/-! ## Claim C9 -/

/-- C9: for every accessible (non-dot, backslash-free) directory with no
index.html, the Content Resolver produces a 200 response with Content-Type
text/html and Content-Length equal to the rendered body's byte length, whose
body is exactly the spec-described listing: a `..` parent link exactly when
the directory is not the root, an "Empty Folder" marker exactly when there
are zero non-dot entries, then all child directories followed by all child
files, each an anchor whose href is the entry's root-relative path (with a
trailing "/" for directories, as `walk_dir` forms entry paths) and whose
label is the bare entry name; dot-entries are skipped entirely. -/
theorem c9_directory_listing (w : World) (root rel : String) (req : Request)
    (hpath : req.path = "/" ++ rel)
    (hdot : strStartsWith rel "." = false)
    (hslash : strStartsWith rel "/" = false)
    (hrelend : strEndsWith rel "/" = false)
    (hbs_root : ∀ c ∈ root.data, c ≠ '\\')
    (hbs_rel : ∀ c ∈ rel.data, c ≠ '\\')
    (hnames : ∀ e ∈ w.read_dir (pathJoin root rel),
      e.name ≠ "" ∧ (∀ c ∈ e.name.data, c ≠ '\\') ∧ strEndsWith e.name "/" = false)
    (hdir : w.is_dir (pathJoin root rel) = true)
    (hindex : w.is_file (joinRel (pathJoin root rel) "index.html") = false) :
    serveOf w root req =
      some
        { request := req
          http_version := .Http11
          status_code := .Ok
          headers :=
            [("Content-Type", "text/html"),
             ("Content-Length", toString (specDirBody w root rel).utf8ByteSize)]
          cookies := []
          body := specDirBody w root rel } := by
  have hfp : pathJoin root rel = pathJoin root (strDrop req.path 1) := by
    rw [hpath, strDrop_one_slash]
  rw [serveOf_dir_branch w root req (pathJoin root rel) hfp hdir hindex]
  have hstrip := stripPrefixPath_join root rel hslash
  by_cases hrel : rel = ""
  · subst hrel
    have hjoin : ∀ name : String, name ≠ "" →
        joinRel (pathJoin root "") name = root ++ "/" ++ name := by
      intro name _
      rw [pathJoin_empty, joinRel, if_pos (strEndsWith_root_slash root)]
    have hbs_rs : ∀ c ∈ (root ++ "/").data, c ≠ '\\' :=
      noBS_append root "/" hbs_root (by decide)
    have hhref : ∀ e : RawEntry,
        "/" ++ e.name ++ (if e.is_dir then "/" else "") = specHref "" e := by
      intro e
      rw [specHref, if_pos rfl]
    exact serve_directory_render (baseResponse req) w root "" "/" hstrip hdot hjoin hbs_rs
      hnames hhref
  · have hfpe : pathJoin root rel = root ++ "/" ++ rel := pathJoin_eq_append root rel hslash hrel
    have hend : strEndsWith (pathJoin root rel) "/" = false := by
      rw [hfpe, strEndsWith_append_ne (root ++ "/") rel hrel]
      exact hrelend
    have hjoin : ∀ name : String, name ≠ "" →
        joinRel (pathJoin root rel) name = root ++ ("/" ++ rel ++ "/") ++ name := by
      intro name _
      rw [joinRel, if_neg (by simp [hend]), hfpe]
      simp only [String.append_assoc]
    have hbs_rs : ∀ c ∈ (root ++ ("/" ++ rel ++ "/")).data, c ≠ '\\' :=
      noBS_append root ("/" ++ rel ++ "/") hbs_root
        (noBS_append ("/" ++ rel) "/" (noBS_append "/" rel (by decide) hbs_rel) (by decide))
    have hhref : ∀ e : RawEntry,
        ("/" ++ rel ++ "/") ++ e.name ++ (if e.is_dir then "/" else "") = specHref rel e := by
      intro e
      rw [specHref, if_neg hrel]
    exact serve_directory_render (baseResponse req) w root rel ("/" ++ rel ++ "/") hstrip hdot
      hjoin hbs_rs hnames hhref

/-- Witness for `c9_directory_listing`: listing /srv/d skips .git and renders
sub/ then a.txt. -/
theorem c9_directory_listing_witness :
    (reqC9.path = "/" ++ "d" ∧ strStartsWith "d" "." = false ∧
     strStartsWith "d" "/" = false ∧ strEndsWith "d" "/" = false ∧
     (∀ c ∈ ("/srv" : String).data, c ≠ '\\') ∧ (∀ c ∈ ("d" : String).data, c ≠ '\\') ∧
     (∀ e ∈ wDirC9.read_dir (pathJoin "/srv" "d"),
       e.name ≠ "" ∧ (∀ c ∈ e.name.data, c ≠ '\\') ∧ strEndsWith e.name "/" = false) ∧
     wDirC9.is_dir (pathJoin "/srv" "d") = true ∧
     wDirC9.is_file (joinRel (pathJoin "/srv" "d") "index.html") = false) ∧
    serveOf wDirC9 "/srv" reqC9 =
      some
        { request := reqC9
          http_version := .Http11
          status_code := .Ok
          headers :=
            [("Content-Type", "text/html"),
             ("Content-Length", toString (specDirBody wDirC9 "/srv" "d").utf8ByteSize)]
          cookies := []
          body := specDirBody wDirC9 "/srv" "d" } :=
  ⟨⟨by decide, by decide, by decide, by decide, by decide, by decide, by decide, by decide,
    by decide⟩,
   c9_directory_listing wDirC9 "/srv" "d" reqC9 (by decide) (by decide) (by decide) (by decide)
     (by decide) (by decide) (by decide) (by decide) (by decide)⟩
